import Mathlib

/-!
Shallow embedding of the asynchronous content pipeline and
retrieval-synthesis engine of the youtubePersone repository, with proofs
about the job worker (`src/supabase/functions/job-processor/index.ts`),
the discovery stage (`src/lib/youtube/video-discovery.ts`,
`src/app/api/jobs/video-discovery/route.ts`), the caption extraction and
embedding stages (`src/app/api/jobs/caption-extraction/route.ts`), and the
chat streaming / citation pipeline (`src/app/api/chat/stream/route.ts`).

Times are modelled as natural numbers of minutes; database tables as lists
of row structures; fallible collaborator calls as `Except` / outcome
parameters.
-/

set_option maxRecDepth 100000

namespace YtPersona

/-! ## Job store (migration `20250903052834_teal_manor.sql`, table `jobs`) -/

/-- Job status column: CHECK (status IN ('pending','running','completed','failed')). -/
inductive JobStatus where
  | pending
  | running
  | completed
  | failed
deriving DecidableEq, Repr

/-- A row of the `jobs` table, restricted to the columns the worker reads
and writes (payload/result/progress/type elided; they do not affect the
control flow under study).  `scheduled_at`, `created_at`, `started_at`,
`completed_at` are minutes since an arbitrary epoch. -/
structure Job where
  id : Nat
  status : JobStatus
  retry_count : Nat
  max_retries : Nat
  scheduled_at : Nat
  created_at : Nat
  started_at : Option Nat
  completed_at : Option Nat
  error_message : Option String
deriving DecidableEq, Repr

/-! ## Worker failure handling (`job-processor/index.ts`, lines 105-137) -/

/-- The failure branch of the worker: `newRetryCount = job.retry_count + 1`;
if `newRetryCount < job.max_retries` the job is reset to `pending` with
`scheduled_at = now + 2^newRetryCount` minutes and the incremented count and
error message are stored; otherwise the job is set to `failed` with
`completed_at = now` and the error message — the terminal update does NOT
write `retry_count`. -/
def handleJobFailure (now : Nat) (errMsg : String) (job : Job) : Job :=
  let newRetryCount := job.retry_count + 1
  let shouldRetry := newRetryCount < job.max_retries
  if shouldRetry then
    { job with
        status := .pending
        retry_count := newRetryCount
        scheduled_at := now + 2 ^ newRetryCount
        error_message := some errMsg }
  else
    { job with
        status := .failed
        completed_at := some now
        error_message := some errMsg }

/-- One scheduler tick on a job whose handler always throws, taken at the
earliest possible moment (`now = job.scheduled_at`): the worker first marks
the job `running` with `started_at = now` (lines 61-67), the handler throws,
and the failure branch runs. -/
def tickAlwaysThrowing (errMsg : String) (job : Job) : Job :=
  handleJobFailure job.scheduled_at errMsg
    { job with status := .running, started_at := some job.scheduled_at }

/-- The sequence of job states after each attempt of a job whose handler
always throws, driving ticks until the job is no longer `pending` (fuel
bounds the number of attempts; `max_retries + 1` always suffices). -/
def attemptTrace (fuel : Nat) (errMsg : String) (job : Job) : List Job :=
  match fuel with
  | 0 => []
  | fuel + 1 =>
    let j := tickAlwaysThrowing errMsg job
    if j.status = .pending then j :: attemptTrace fuel errMsg j else [j]

/-- A freshly enqueued job: `status = pending`, `retry_count = 0`
(migration defaults), first due at time `s`. -/
def freshJob (maxRetries s : Nat) : Job :=
  { id := 0, status := .pending, retry_count := 0, max_retries := maxRetries
    scheduled_at := s, created_at := s, started_at := none
    completed_at := none, error_message := none }

/-! ## Dequeue (`job-processor/index.ts`, lines 36-71) -/

/-- `dequeueNext`'s read: the single oldest (`order created_at asc, limit 1`)
job with `status = 'pending'` and `scheduled_at <= now`. -/
def selectNextPending (now : Nat) (store : List Job) : Option Job :=
  (store.filter (fun j => j.status = .pending ∧ j.scheduled_at ≤ now)).argmin
    (fun j => j.created_at)

/-- `dequeueNext`'s write: `update { status: running, started_at: now }`
filtered ONLY by `.eq('id', job.id)` — no condition on the current status. -/
def claimUpdate (now : Nat) (id : Nat) (store : List Job) : List Job :=
  store.map (fun j =>
    if j.id = id then { j with status := .running, started_at := some now } else j)

/-- One scheduler tick's dequeue against a store: read then write, returning
the job record that was read (the worker then processes that record). -/
def dequeueTick (now : Nat) (store : List Job) : Option Job × List Job :=
  match selectNextPending now store with
  | none => (none, store)
  | some j => (some j, claimUpdate now j.id store)

/-- Two concurrent ticks interleaved as read₁, read₂, write₁, write₂ — the
interleaving the code permits because nothing orders the second read after
the first write.  Returns the job each tick claimed and processes. -/
def twoTicksReadReadWriteWrite (now : Nat) (s₀ : List Job) :
    Option Job × Option Job × List Job :=
  let r₁ := selectNextPending now s₀
  let r₂ := selectNextPending now s₀
  let s₁ := match r₁ with | none => s₀ | some j => claimUpdate now j.id s₀
  let s₂ := match r₂ with | none => s₁ | some j => claimUpdate now j.id s₁
  (r₁, r₂, s₂)

/-! ## Video rows and statuses (migrations, table `videos`) -/

/-- `captions_status` column values. -/
inductive CaptionsStatus where
  | pending
  | processing
  | extracted
  | completed
  | failed
deriving DecidableEq, Repr

/-- A row of the `videos` table, restricted to the columns the pipeline
reads and writes (thumbnail/duration/view_count and the processing
timestamps are elided; they do not affect any claim). -/
structure VideoRow where
  video_id : String
  persona_id : String
  title : String
  published_at : Nat
  captions_status : CaptionsStatus
  captions_error : Option String
  apify_runid : Option String
deriving DecidableEq, Repr

/-- `discovery_status` column values on `personas`. -/
inductive DiscoveryStatus where
  | pending
  | in_progress
  | completed
deriving DecidableEq, Repr

/-- A row of the `personas` table, restricted to the columns the discovery
stage reads and writes.  The continuation token stores the publish
timestamp of the newest video already seen (`video-discovery.ts` stores
`lastVideo.publishedAt` there). -/
structure PersonaRow where
  id : String
  continuation_token : Option Nat
  discovery_status : DiscoveryStatus
deriving DecidableEq, Repr

/-! ## Discovery stage (`src/lib/youtube/video-discovery.ts`) -/

/-- An item of the uploads playlist as `discoverVideos` consumes it
(description/thumbnail/duration/viewCount elided). -/
structure VideoInfo where
  videoId : String
  title : String
  publishedAt : Nat
deriving DecidableEq, Repr

/-- One page of the uploads playlist: its items and whether the API
reported a `nextPageToken` (pages chain linearly, so the catalog is a
list of pages and the token is the position of the next page). -/
structure CatalogPage where
  items : List VideoInfo
  hasNext : Bool
deriving DecidableEq, Repr

/-- Result shape of `discoverVideos`. -/
structure DiscoveryResult where
  videos : List VideoInfo
  continuationToken : Option Nat
  hasMore : Bool
deriving DecidableEq, Repr

/-- The inner `for (let v of details)` loop of `discoverVideos`
(lines 103-109): push each video until one with
`publishedAt <= stopDate` is hit, in which case set `done` and break.
Returns the pushed prefix and the `done` flag. -/
def collectPage (stopDate : Option Nat) : List VideoInfo → List VideoInfo × Bool
  | [] => ([], false)
  | v :: rest =>
    match stopDate with
    | some d =>
      if v.publishedAt ≤ d then ([], true)
      else
        let r := collectPage (some d) rest
        (v :: r.1, r.2)
    | none =>
      let r := collectPage none rest
      (v :: r.1, r.2)

/-- The `while (!done)` page loop of `discoverVideos` (lines 90-113): break
on an empty page, collect the page, stop when `done` was set or when there
is no `nextPageToken`, otherwise continue with the next page.  Note it
walks ALL remaining pages within a single invocation. -/
def discoverWalk (stopDate : Option Nat) : List CatalogPage → List VideoInfo
  | [] => []
  | p :: rest =>
    if p.items.isEmpty then []
    else
      let r := collectPage stopDate p.items
      if r.2 then r.1
      else if p.hasNext then r.1 ++ discoverWalk stopDate rest
      else r.1

/-- `discoverVideos(channelId, continuationToken)` (lines 79-126): walk the
pages with `stopDate = continuationToken`, reverse (API returns newest to
oldest), and report `continuationToken = lastVideo.publishedAt` (the
newest seen) and `hasMore = !!lastVideo` — true exactly when any video was
collected. -/
def discoverVideos (catalog : List CatalogPage) (continuationToken : Option Nat) :
    DiscoveryResult :=
  let allVideos := (discoverWalk continuationToken catalog).reverse
  match allVideos.getLast? with
  | some lastVideo =>
    { videos := allVideos
      continuationToken := some lastVideo.publishedAt
      hasMore := true }
  | none =>
    { videos := allVideos
      continuationToken := continuationToken
      hasMore := false }

/-! ## Discovery route (`src/app/api/jobs/video-discovery/route.ts`) -/

/-- A row of the `jobs` table as the discovery route inserts it
(lines 75-85); `idempotency_key text UNIQUE NOT NULL` in the migration. -/
structure JobRow where
  jobType : String
  payload_videoId : String
  payload_personaId : String
  status : JobStatus
  idempotency_key : String
  max_retries : Nat
deriving DecidableEq, Repr

/-- `upsert(videos, onConflict: video_id, ignoreDuplicates: true)`: insert
each new row unless a row with the same `video_id` is already present. -/
def upsertVideosIgnoreDup (existing new : List VideoRow) : List VideoRow :=
  new.foldl
    (fun acc v => if acc.any (fun w => w.video_id = v.video_id) then acc else acc ++ [v])
    existing

/-- `insert(captionJobs)` against the UNIQUE `idempotency_key` constraint:
a plain multi-row INSERT fails as a whole if any inserted key collides
(with an existing row or within the batch); the route only logs that
error, so the table is then left unchanged. -/
def insertJobs (existing new : List JobRow) : List JobRow :=
  if (new.map (fun j => j.idempotency_key)).Nodup ∧
      ∀ j ∈ new, ∀ e ∈ existing, j.idempotency_key ≠ e.idempotency_key then
    existing ++ new
  else existing

/-- The video row the route builds for a discovered video (lines 35-45):
`captions_status = 'pending'`. -/
def videoRowOf (personaId : String) (v : VideoInfo) : VideoRow :=
  { video_id := v.videoId, persona_id := personaId, title := v.title
    published_at := v.publishedAt, captions_status := .pending
    captions_error := none, apify_runid := none }

/-- The caption-extraction job the route builds for a video (lines 75-85):
`idempotency_key = caption_extraction_<video_id>` — deterministic in the
video id alone — `max_retries = 2`, `status = 'pending'`. -/
def captionJobOf (personaId : String) (v : VideoRow) : JobRow :=
  { jobType := "caption_extraction"
    payload_videoId := v.video_id, payload_personaId := personaId
    status := .pending
    idempotency_key := "caption_extraction_" ++ v.video_id
    max_retries := 2 }

/-- The tables the discovery route touches. -/
structure DiscoveryDb where
  persona : PersonaRow
  videos : List VideoRow
  jobs : List JobRow
deriving DecidableEq, Repr

/-- The discovery route `POST` (lines 11-112): read the persona's
continuation token, run `discoverVideos`, and — only if at least one video
was returned — upsert the video rows, update the persona with the new
token and `discovery_status = in_progress if hasMore else completed`, and
insert one caption-extraction job per returned video.  When no video was
returned nothing is written. -/
def discoveryPost (catalog : List CatalogPage) (db : DiscoveryDb) : DiscoveryDb :=
  let result := discoverVideos catalog db.persona.continuation_token
  if result.videos.length > 0 then
    let videos := result.videos.map (videoRowOf db.persona.id)
    let videosTable := upsertVideosIgnoreDup db.videos videos
    let persona :=
      { db.persona with
          continuation_token := result.continuationToken
          discovery_status := if result.hasMore then .in_progress else .completed }
    let captionJobs := videos.map (captionJobOf db.persona.id)
    let jobsTable :=
      if captionJobs.length > 0 then insertJobs db.jobs captionJobs else db.jobs
    { persona := persona, videos := videosTable, jobs := jobsTable }
  else db

/-! ## Caption extraction (`src/app/api/jobs/caption-extraction/route.ts`) -/

/-- A caption chunk as the scraping collaborator returns it
(`fetchApifyResults`): start, duration, text. -/
structure RawCaption where
  start : Nat
  duration : Nat
  text : String
deriving DecidableEq, Repr

/-- A row of the `captions` table as this pipeline writes it: the boolean
`embedding` column is false until the vector upsert is confirmed. -/
structure CaptionRow where
  id : Nat
  video_id : String
  persona_id : String
  start_time : Nat
  duration : Nat
  text : String
  embedding : Bool
deriving DecidableEq, Repr

/-- The tables the extraction and embedding handlers touch. -/
structure ContentDb where
  videos : List VideoRow
  captions : List CaptionRow
deriving DecidableEq, Repr

/-- `update(...).eq("video_id", videoId)` on the `videos` table. -/
def setVideo (videoId : String) (f : VideoRow → VideoRow) (videos : List VideoRow) :
    List VideoRow :=
  videos.map (fun v => if v.video_id = videoId then f v else v)

/-- The catch handler of the extraction route (lines 85-104): set
`captions_status = 'failed'` and record the exception message in
`captions_error`. -/
def extractionFailUpdate (videoId msg : String) (db : ContentDb) : ContentDb :=
  { db with
      videos :=
        setVideo videoId
          (fun v => { v with captions_status := .failed, captions_error := some msg })
          db.videos }

/-- Lines 22-43 of the extraction route: read the stored `apify_runid`;
when none is stored, start a run and persist its id with
`captions_status = 'processing'` (`newRunId` is the id `startApifyRun`
returns in that case). -/
def ensureRunStored (videoId newRunId : String) (db : ContentDb) : ContentDb :=
  let vrow := db.videos.find? (fun v => v.video_id = videoId)
  if (vrow.bind (fun v => v.apify_runid)).isSome then db
  else
    { db with
        videos :=
          setVideo videoId
            (fun v => { v with apify_runid := some newRunId, captions_status := .processing })
            db.videos }

/-- The extraction route `POST` (lines 16-112).  `fetch` is the outcome of
the fallible collaborator interaction inside the inner `try`
(`fetchApifyResults` and the subsequent calls — any exception there is a
`.error msg`); `idBase` stands for the database-generated ids of the
inserted rows.  Returns the new tables and the route's success flag.

With a nonempty chunk list the route inserts the WHOLE fresh set with
`embedding = false` and sets `captions_status = 'extracted'` — it never
reads, compares with, or deletes chunks already stored for the video.
With an empty chunk list it throws "No captions available for this video",
which the catch turns into the failed update. -/
def captionExtractionPost (videoId personaId newRunId : String)
    (fetch : Except String (List RawCaption)) (idBase : Nat) (db : ContentDb) :
    ContentDb × Bool :=
  let db1 := ensureRunStored videoId newRunId db
  match fetch with
  | .ok captions =>
    if captions.length > 0 then
      let rows := captions.enum.map (fun p =>
        { id := idBase + p.1, video_id := videoId, persona_id := personaId
          start_time := p.2.start, duration := p.2.duration, text := p.2.text
          embedding := false : CaptionRow })
      ({ videos := setVideo videoId (fun v => { v with captions_status := .extracted }) db1.videos
         captions := db1.captions ++ rows }, true)
    else (extractionFailUpdate videoId "No captions available for this video" db1, false)
  | .error msg => (extractionFailUpdate videoId msg db1, false)

/-! ## Caption embedding handler (same route file, lines 239-382) -/

/-- The candidate query (lines 249-261): captions of the persona with
`embedding = false`, optionally scoped to one video, `limit(100)`. -/
def selectCandidates (personaId : String) (videoId : Option String)
    (captions : List CaptionRow) : List CaptionRow :=
  (captions.filter (fun c =>
    c.persona_id = personaId ∧ c.embedding = false ∧
      (videoId = none ∨ videoId = some c.video_id))).take 100

/-- `update(embedding := true).eq("id", id)` on the `captions` table. -/
def markEmbedded (id : Nat) (captions : List CaptionRow) : List CaptionRow :=
  captions.map (fun c => if c.id = id then { c with embedding := true } else c)

/-- Per-candidate processing (lines 283-343): embed, upsert the vector,
then flip the flag — `ok id` says whether all three succeeded for that
chunk (any failure is caught per chunk and leaves the flag false).  The
grouping into batches of 10 only bounds outbound concurrency; each chunk's
database effect is the independent flag update modelled here. -/
def applyEmbeds (ok : Nat → Bool) (cands : List CaptionRow)
    (captions : List CaptionRow) : List CaptionRow :=
  cands.foldl (fun tbl c => if ok c.id then markEmbedded c.id tbl else tbl) captions

/-- The remaining-work query of the completion check (lines 347-352):
is any chunk of this video and persona still `embedding = false`? -/
def hasUnembedded (personaId vid : String) (captions : List CaptionRow) : Bool :=
  captions.any (fun c =>
    c.video_id = vid ∧ c.persona_id = personaId ∧ c.embedding = false)

/-- `update(captions_status := 'completed').eq("video_id", vid)`. -/
def markVideoCompleted (vid : String) (videos : List VideoRow) : List VideoRow :=
  videos.map (fun v =>
    if v.video_id = vid then { v with captions_status := .completed } else v)

/-- The embedding handler `POST` (lines 239-382): select up to 100
un-embedded candidates; if none, return early WITHOUT the completion
check; otherwise process them, and — only when scoped to one video — mark
that video `completed` exactly when no `embedding = false` chunk of it
remains. -/
def captionEmbeddingPost (personaId : String) (videoId : Option String)
    (ok : Nat → Bool) (db : ContentDb) : ContentDb :=
  let cands := selectCandidates personaId videoId db.captions
  if cands.isEmpty then db
  else
    let captions2 := applyEmbeds ok cands db.captions
    match videoId with
    | none => { db with captions := captions2 }
    | some vid =>
      if hasUnembedded personaId vid captions2 then { db with captions := captions2 }
      else { videos := markVideoCompleted vid db.videos, captions := captions2 }

/-! ## Citation validation (`src/app/api/chat/stream/route.ts`,
`extractReferencesWithAI`, lines 258-386) -/

/-- A retrieved-context entry as built at lines 55-65: it carries the
chunk's start time in the field `start` — there is NO `timestamp` field on
these objects (the unused `confidence` score is elided). -/
structure RetrievedCtx where
  text : String
  video_id : String
  start : Nat
  video_title : String
deriving DecidableEq, Repr

/-- A reference as returned by the structured LLM call (zod schema at
lines 263-267): `video_id`, nonnegative `timestamp`, `confidence` in
[0,1]. -/
structure ModelReference where
  video_id : String
  timestamp : ℚ
  confidence : ℚ
deriving DecidableEq, Repr

/-- A validated reference as returned to the stream (lines 365-372). -/
structure OutReference where
  id : String
  title : String
  timestamp : ℚ
  confidence : ℚ
  text_preview : String
deriving DecidableEq, Repr

/-- A JavaScript arithmetic value as the timestamp-matching reduce
computes with it: a number, or NaN (reading a missing property yields
undefined, which enters `-` as NaN). -/
inductive JsNum where
  | num (q : ℚ)
  | nan
deriving DecidableEq, Repr

/-- JavaScript subtraction: NaN-absorbing. -/
def jsSub : JsNum → JsNum → JsNum
  | .num a, .num b => .num (a - b)
  | _, _ => .nan

/-- `Math.abs`: NaN-absorbing. -/
def jsAbs : JsNum → JsNum
  | .num a => .num |a|
  | .nan => .nan

/-- JavaScript `<`: any comparison involving NaN is false. -/
def jsLt : JsNum → JsNum → Bool
  | .num a, .num b => a < b
  | _, _ => false

/-- Reading `.timestamp` on a retrieved-context entry (lines 358-359):
the entries carry `start`, not `timestamp`, so the access yields
undefined and the value enters the arithmetic as NaN. -/
def ctxTimestampField (_ : RetrievedCtx) : JsNum := .nan

/-- The per-reference chunk selection (lines 352-363):
`matchingContext = videoContexts[0]`; if `ref.timestamp` is truthy and the
video contributed more than one chunk, reduce over the list keeping
`current` exactly when
`Math.abs(current.timestamp - ref.timestamp) <
 Math.abs(closest.timestamp - ref.timestamp)`
(a JS reduce with no initial value starts from the first element). -/
def pickMatchingContext (refTimestamp : ℚ) (videoContexts : List RetrievedCtx) :
    Option RetrievedCtx :=
  match videoContexts with
  | [] => none
  | c0 :: rest =>
    if refTimestamp ≠ 0 ∧ rest ≠ [] then
      some (rest.foldl
        (fun closest current =>
          let closestDiff := jsAbs (jsSub (ctxTimestampField closest) (.num refTimestamp))
          let currentDiff := jsAbs (jsSub (ctxTimestampField current) (.num refTimestamp))
          if jsLt currentDiff closestDiff then current else closest)
        c0)
    else some c0

/-- The per-video context group: `contextMap.get(video_id)` holds the
retrieved entries of that video in retrieval order (lines 327-333). -/
def contextsFor (video_id : String) (ctx : List RetrievedCtx) : List RetrievedCtx :=
  ctx.filter (fun c => c.video_id = video_id)

/-- Validation and enrichment of the model's references (lines 336-373):
drop (and log) every reference whose `video_id` has no entry in the
retrieved context, then attach the selected chunk's title and a 50
character text preview. -/
def validateReferences (refs : List ModelReference)
    (availableContext : List RetrievedCtx) : List OutReference :=
  (refs.filter (fun r => contextsFor r.video_id availableContext ≠ [])).filterMap
    (fun r =>
      match pickMatchingContext r.timestamp (contextsFor r.video_id availableContext) with
      | none => none
      | some m =>
        some { id := r.video_id, title := m.video_title, timestamp := r.timestamp
               confidence := r.confidence, text_preview := m.text.take 50 ++ "..." })

/-! ## Chat stream persistence order (`src/app/api/chat/stream/route.ts`,
the `ReadableStream` start body, lines 85-235) -/

/-- The externally visible actions of the stream body, in order: events
enqueued to the client and rows written to the datastore. -/
inductive ChatAction where
  | contentEvent (s : String)
  | referencesEvent
  | completeEvent
  | errorEvent
  | insertChatSession
  | insertUserMessage
  | insertAssistantMessage
deriving DecidableEq, Repr

/-- Outcome of the streaming completion call: the delta contents yielded
before the stream ended, and whether the call or the iteration threw
(throwing at creation yields no tokens). -/
structure LlmStreamOutcome where
  tokens : List String
  throws : Bool
deriving DecidableEq, Repr

/-- The loop at lines 120-130 emits one content event per nonempty delta. -/
def contentActions (tokens : List String) : List ChatAction :=
  (tokens.filter (fun t => t ≠ "")).map ChatAction.contentEvent

/-- `accumulatedContent`: the nonempty deltas concatenated. -/
def accumulatedContent (tokens : List String) : String :=
  String.join (tokens.filter (fun t => t ≠ ""))

/-- The stream body (lines 86-234) as its action trace.  `refsResult`
models the return value of `extractReferencesWithAI` (which catches its
own errors and returns `[]` rather than throwing).  On a throw of the
streaming call the catch emits a single error event and closes — the
session, user-message and assistant-message inserts all sit after the
loop, so none of them has run.  On success the inserts run only after the
whole token stream was consumed: session first (only when no session id
was passed and a user id is present), then the user message, then the
assistant message (only with a user id), then the complete event. -/
def chatStreamTrace (llm : LlmStreamOutcome) (haveContext : Bool)
    (refsResult : List OutReference) (sessionIdProvided userIdPresent : Bool) :
    List ChatAction :=
  if llm.throws then contentActions llm.tokens ++ [.errorEvent]
  else
    let references :=
      if haveContext ∧ (accumulatedContent llm.tokens).trim ≠ "" then refsResult else []
    contentActions llm.tokens
      ++ (if references ≠ [] then [ChatAction.referencesEvent] else [])
      ++ (if ¬ sessionIdProvided ∧ userIdPresent then [ChatAction.insertChatSession] else [])
      ++ [ChatAction.insertUserMessage]
      ++ (if userIdPresent then [ChatAction.insertAssistantMessage] else [])
      ++ [ChatAction.completeEvent]

/-- Which actions are datastore writes. -/
def ChatAction.isDbWrite : ChatAction → Bool
  | .insertChatSession => true
  | .insertUserMessage => true
  | .insertAssistantMessage => true
  | _ => false

/-- Which actions are content events. -/
def ChatAction.isContent : ChatAction → Bool
  | .contentEvent _ => true
  | _ => false

/-! ## Concrete scenario data -/

/-- First retrieved chunk of video v1 (retrieval order), start time 10. -/
def ctxFirst : RetrievedCtx :=
  { text := "early text", video_id := "v1", start := 10, video_title := "V" }

/-- Second retrieved chunk of video v1, start time 100. -/
def ctxNear : RetrievedCtx :=
  { text := "later text", video_id := "v1", start := 100, video_title := "V" }

/-! ## C6 -/

/-- C6: every reference returned by the citation-extraction call whose
`video_id` does not appear in the retrieved context is dropped, so the
reference list attached to the answer names only video ids present in the
retrieved set; in particular a reference to "ghost" against the retrieved
set of videos v1 and v2 is excluded from the output. -/
theorem citation_validation_drops_unknown :
    (∀ (refs : List ModelReference) (ctx : List RetrievedCtx),
        (validateReferences refs ctx).all
          (fun o => ctx.any (fun c => c.video_id = o.id)) = true) ∧
    validateReferences
      [{ video_id := "ghost", timestamp := 5, confidence := 9/10 }]
      [{ text := "a", video_id := "v1", start := 0, video_title := "A" },
       { text := "b", video_id := "v2", start := 7, video_title := "B" }] = [] := by
  refine ⟨?_, by decide⟩
  intro refs ctx
  rw [List.all_eq_true]
  intro o ho
  obtain ⟨r, hr, hro⟩ := List.mem_filterMap.mp ho
  obtain ⟨hrmem, hrp⟩ := List.mem_filter.mp hr
  rw [decide_eq_true_eq] at hrp
  obtain ⟨c, hc⟩ := List.exists_mem_of_ne_nil _ hrp
  obtain ⟨hcmem, hcp⟩ := List.mem_filter.mp hc
  rw [decide_eq_true_eq] at hcp
  rcases hpick : pickMatchingContext r.timestamp (contextsFor r.video_id ctx) with _ | m
  · rw [hpick] at hro
    simp at hro
  · rw [hpick] at hro
    simp only [Option.some.injEq] at hro
    rw [List.any_eq_true]
    refine ⟨c, hcmem, ?_⟩
    rw [decide_eq_true_eq, ← hro, hcp]

/-! ## C7 -/

/-- C7 (code bug): the chunk selection for a validated reference is meant
(per its own comment, "Find the context entry with the closest timestamp")
to pick the chunk whose start time is closest to the claimed timestamp,
but it reads `.timestamp` on the context entries — which carry `start` —
so both distances are NaN, every comparison is false, and the reduce
always keeps the FIRST retrieved chunk.  Here video v1 contributed chunks
with start 10 and start 100, the model claims timestamp 100, the second
chunk is strictly closer, yet the first is selected and its title and
text are attached to the reference. -/
theorem timestamp_matching_ignores_start :
    pickMatchingContext 100 [ctxFirst, ctxNear] = some ctxFirst ∧
    (100 - (ctxNear.start : Int)).natAbs < (100 - (ctxFirst.start : Int)).natAbs ∧
    validateReferences [{ video_id := "v1", timestamp := 100, confidence := 1 }]
        [ctxFirst, ctxNear] =
      [{ id := "v1", title := "V", timestamp := 100, confidence := 1,
         text_preview := "early text..." }] := by decide

/-! ## C10 -/

/-- Content events carry no datastore write. -/
lemma contentActions_isDbWrite_false (tokens : List String) :
    ∀ a ∈ contentActions tokens, a.isDbWrite = false := by
  intro a ha
  obtain ⟨t, _, rfl⟩ := List.mem_map.mp ha
  rfl

/-- Membership in a conditional singleton. -/
lemma eq_of_mem_if_singleton {α : Type} {c : Prop} [Decidable c] {x a : α}
    (h : a ∈ if c then [x] else []) : a = x := by
  split at h
  · simpa using h
  · simp at h

/-- In a list split as a write-free prefix and a content-free suffix, every
datastore write comes strictly after every content event. -/
lemma writes_after_content {L A B : List ChatAction} (hL : L = A ++ B)
    (h1 : ∀ a ∈ A, a.isDbWrite = false) (h2 : ∀ a ∈ B, a.isContent = false)
    {i j : Nat} (hi : i < L.length) (hj : j < L.length)
    (hw : (L[i]).isDbWrite = true) (hc : (L[j]).isContent = true) : j < i := by
  subst hL
  have hiA : ¬ i < A.length := by
    intro hlt
    rw [List.getElem_append_left hlt] at hw
    have := h1 (A[i]) (List.getElem_mem _)
    rw [this] at hw
    exact Bool.false_ne_true hw
  have hB : ∀ (k : Nat) (hk : k < B.length), (B[k]).isContent = false := by
    intro k hk
    exact h2 (B[k]) (List.getElem_mem _)
  have hjA : j < A.length := by
    by_contra hge
    rw [List.getElem_append_right (Nat.le_of_not_lt hge)] at hc
    rw [hB (j - A.length) (by simp at hj; omega)] at hc
    exact Bool.false_ne_true hc
  omega

/-- C10: in the chat streaming handler, the chat session row, the user
message and the assistant message are persisted only after the LLM token
stream has been fully consumed — every datastore write in the action
trace comes strictly after every content event — and when the streaming
call throws, the handler emits exactly one error event, closes with it,
and writes no session row, no user message and no assistant message. -/
theorem chat_stream_persistence_order (llm : LlmStreamOutcome) (haveContext : Bool)
    (refsResult : List OutReference) (sessionIdProvided userIdPresent : Bool) :
    (llm.throws = true →
      ((chatStreamTrace llm haveContext refsResult sessionIdProvided userIdPresent).filter
          (fun a => a.isDbWrite)) = [] ∧
      (chatStreamTrace llm haveContext refsResult sessionIdProvided userIdPresent).count
          ChatAction.errorEvent = 1 ∧
      (chatStreamTrace llm haveContext refsResult sessionIdProvided userIdPresent).getLast?
          = some ChatAction.errorEvent) ∧
    (llm.throws = false →
      ∀ (i j : Nat)
        (hi : i < (chatStreamTrace llm haveContext refsResult sessionIdProvided
          userIdPresent).length)
        (hj : j < (chatStreamTrace llm haveContext refsResult sessionIdProvided
          userIdPresent).length),
        ((chatStreamTrace llm haveContext refsResult sessionIdProvided
          userIdPresent)[i]).isDbWrite = true →
        ((chatStreamTrace llm haveContext refsResult sessionIdProvided
          userIdPresent)[j]).isContent = true → j < i) := by
  constructor
  · intro hth
    have htr : chatStreamTrace llm haveContext refsResult sessionIdProvided userIdPresent
        = contentActions llm.tokens ++ [ChatAction.errorEvent] := by
      simp [chatStreamTrace, hth]
    rw [htr]
    refine ⟨?_, ?_, ?_⟩
    · rw [List.filter_append]
      have hA : (contentActions llm.tokens).filter (fun a => a.isDbWrite) = [] := by
        rw [List.filter_eq_nil_iff]
        intro a ha
        rw [contentActions_isDbWrite_false llm.tokens a ha]
        exact Bool.false_ne_true
      rw [hA]
      rfl
    · rw [List.count_append]
      have hA : (contentActions llm.tokens).count ChatAction.errorEvent = 0 := by
        rw [List.count_eq_zero]
        intro hmem
        obtain ⟨t, _, he⟩ := List.mem_map.mp hmem
        exact ChatAction.noConfusion he
      rw [hA]
      rfl
    · exact List.getLast?_concat _
  · intro hth i j hi hj hw hc
    refine writes_after_content (A := contentActions llm.tokens)
      (B := (if (if haveContext ∧ (accumulatedContent llm.tokens).trim ≠ "" then refsResult
              else []) ≠ [] then [ChatAction.referencesEvent] else [])
        ++ ((if ¬ sessionIdProvided ∧ userIdPresent then [ChatAction.insertChatSession] else [])
        ++ ([ChatAction.insertUserMessage]
        ++ ((if userIdPresent then [ChatAction.insertAssistantMessage] else [])
        ++ [ChatAction.completeEvent])))) ?_ ?_ ?_ hi hj hw hc
    · simp [chatStreamTrace, hth, List.append_assoc]
    · exact contentActions_isDbWrite_false llm.tokens
    · intro a ha
      rcases List.mem_append.mp ha with h | h
      · rw [eq_of_mem_if_singleton h]; rfl
      rcases List.mem_append.mp h with h | h
      · rw [eq_of_mem_if_singleton h]; rfl
      rcases List.mem_append.mp h with h | h
      · rw [List.mem_singleton.mp h]; rfl
      rcases List.mem_append.mp h with h | h
      · rw [eq_of_mem_if_singleton h]; rfl
      · rw [List.mem_singleton.mp h]; rfl

/-- Witness for C10: a run whose streaming call throws after one token
emits exactly the content then a single error event and performs no
datastore write. -/
theorem chat_stream_persistence_order_witness :
    ((chatStreamTrace ⟨["hi"], true⟩ true [] false true).filter
        (fun a => a.isDbWrite)) = [] ∧
    (chatStreamTrace ⟨["hi"], true⟩ true [] false true).count ChatAction.errorEvent = 1 ∧
    (chatStreamTrace ⟨["hi"], true⟩ true [] false true).getLast?
        = some ChatAction.errorEvent :=
  (chat_stream_persistence_order ⟨["hi"], true⟩ true [] false true).1 rfl

/-! ## C4 and C9: extraction stage -/

/-- A video row with a stored run, captions already extracted. -/
def vRowExtracted : VideoRow :=
  { video_id := "v1", persona_id := "p1", title := "T", published_at := 0
    captions_status := .extracted, captions_error := none, apify_runid := some "r1" }

/-- Two caption rows already stored for video v1. -/
def capRow1 : CaptionRow :=
  { id := 1, video_id := "v1", persona_id := "p1", start_time := 0, duration := 40
    text := "a", embedding := true }

def capRow2 : CaptionRow :=
  { id := 2, video_id := "v1", persona_id := "p1", start_time := 34, duration := 40
    text := "b", embedding := true }

/-- State before an extraction re-run: 2 chunks already stored for v1. -/
def dbBefore : ContentDb := { videos := [vRowExtracted], captions := [capRow1, capRow2] }

/-- A fresh fetch returning the same 2 chunks again. -/
def freshChunks : List RawCaption := [⟨0, 40, "a"⟩, ⟨34, 40, "b"⟩]

/-- `ensureRunStored` never touches the captions table. -/
lemma ensureRunStored_captions (videoId newRunId : String) (db : ContentDb) :
    (ensureRunStored videoId newRunId db).captions = db.captions := by
  simp only [ensureRunStored]
  split <;> rfl

/-- A row of `setVideo videoId f videos` whose `video_id` is `videoId`
comes from applying `f` to a matching row of `videos`. -/
lemma setVideo_eq_f (videoId : String) (f : VideoRow → VideoRow) (videos : List VideoRow) :
    ∀ r ∈ setVideo videoId f videos, r.video_id = videoId →
      ∃ w ∈ videos, w.video_id = videoId ∧ r = f w := by
  intro r hr hrid
  simp only [setVideo, List.mem_map] at hr
  obtain ⟨w, hw, hwe⟩ := hr
  by_cases h : w.video_id = videoId
  · rw [if_pos h] at hwe
    exact ⟨w, hw, h, hwe.symm⟩
  · rw [if_neg h] at hwe
    rw [← hwe] at hrid
    exact absurd hrid h

/-- Unfolding: a fetch returning zero chunks ends in the catch with the
descriptive message. -/
lemma captionExtractionPost_ok_nil (videoId personaId newRunId : String)
    (idBase : Nat) (db : ContentDb) :
    captionExtractionPost videoId personaId newRunId (.ok []) idBase db
      = (extractionFailUpdate videoId "No captions available for this video"
          (ensureRunStored videoId newRunId db), false) := rfl

/-- Unfolding: an exception during the run ends in the catch with the
exception message. -/
lemma captionExtractionPost_err (videoId personaId newRunId msg : String)
    (idBase : Nat) (db : ContentDb) :
    captionExtractionPost videoId personaId newRunId (.error msg) idBase db
      = (extractionFailUpdate videoId msg (ensureRunStored videoId newRunId db), false) := rfl

/-- Unfolding: a fetch returning a nonempty chunk list inserts the whole
fresh set and sets the video `extracted`. -/
lemma captionExtractionPost_ok_cons (videoId personaId newRunId : String)
    (idBase : Nat) (db : ContentDb) (chunks : List RawCaption) (h : chunks ≠ []) :
    captionExtractionPost videoId personaId newRunId (.ok chunks) idBase db
      = ({ videos := setVideo videoId (fun v => { v with captions_status := .extracted })
              (ensureRunStored videoId newRunId db).videos
           captions := (ensureRunStored videoId newRunId db).captions
              ++ chunks.enum.map (fun p =>
                { id := idBase + p.1, video_id := videoId, persona_id := personaId
                  start_time := p.2.start, duration := p.2.duration, text := p.2.text
                  embedding := false : CaptionRow }) }, true) := by
  have hl : 0 < chunks.length := List.length_pos.mpr h
  simp only [captionExtractionPost, gt_iff_lt, hl, if_true]

/-- C4 counterexample: an extraction re-run in which the freshly fetched
chunk count (2) equals the count already stored for the video (2) is NOT
a no-op — the handler inserts the fresh set anyway, growing the captions
table from 2 to 4 rows. -/
theorem extraction_rerun_counterexample :
    dbBefore.captions.length = 2 ∧ freshChunks.length = 2 ∧
    (captionExtractionPost "v1" "p1" "rX" (.ok freshChunks) 10 dbBefore).1.captions
      ≠ dbBefore.captions ∧
    (captionExtractionPost "v1" "p1" "rX" (.ok freshChunks) 10 dbBefore).1.captions.length
      = 4 := by decide

/-- C4 (amended): the extraction run never compares against or deletes
existing chunks; whenever the collaborator returns a nonempty chunk set,
the run appends the full new set with `embedded = false` to whatever is
stored and sets `captions_status = extracted`, so a re-run with equal
counts duplicates the chunks rather than being a no-op. -/
theorem extraction_rerun_always_inserts (videoId personaId newRunId : String)
    (idBase : Nat) (db : ContentDb) (chunks : List RawCaption) (h : chunks ≠ []) :
    (captionExtractionPost videoId personaId newRunId (.ok chunks) idBase db).1.captions
      = db.captions ++ chunks.enum.map (fun p =>
          { id := idBase + p.1, video_id := videoId, persona_id := personaId
            start_time := p.2.start, duration := p.2.duration, text := p.2.text
            embedding := false : CaptionRow }) ∧
    (∀ c ∈ (captionExtractionPost videoId personaId newRunId
        (.ok chunks) idBase db).1.captions.drop db.captions.length,
      c.embedding = false) ∧
    (∀ r ∈ (captionExtractionPost videoId personaId newRunId
        (.ok chunks) idBase db).1.videos,
      r.video_id = videoId → r.captions_status = .extracted) := by
  rw [captionExtractionPost_ok_cons videoId personaId newRunId idBase db chunks h]
  refine ⟨?_, ?_, ?_⟩
  · rw [ensureRunStored_captions]
  · intro c hc
    rw [ensureRunStored_captions] at hc
    rw [List.drop_left] at hc
    obtain ⟨p, _, rfl⟩ := List.mem_map.mp hc
    rfl
  · intro r hr hrid
    obtain ⟨w, _, _, rfl⟩ := setVideo_eq_f videoId _ _ r hr hrid
    rfl

/-- Witness for C4 (amended): the concrete equal-count re-run appends the
fresh rows after the stored ones. -/
theorem extraction_rerun_always_inserts_witness :
    freshChunks ≠ [] ∧
    (captionExtractionPost "v1" "p1" "rX" (.ok freshChunks) 10 dbBefore).1.captions
      = dbBefore.captions ++ freshChunks.enum.map (fun p =>
          { id := 10 + p.1, video_id := "v1", persona_id := "p1"
            start_time := p.2.start, duration := p.2.duration, text := p.2.text
            embedding := false : CaptionRow }) :=
  ⟨by decide,
   (extraction_rerun_always_inserts "v1" "p1" "rX" 10 dbBefore freshChunks (by decide)).1⟩

/-- C9: a run in which the collaborator returns zero usable chunks sets
`captions_status = failed` with the descriptive reason "No captions
available for this video" and reports failure (never a silent success);
and a run in which an exception with message `msg` is thrown sets
`captions_status = failed` with `captions_error = msg`. -/
theorem extraction_failure_sets_failed (videoId personaId newRunId : String)
    (idBase : Nat) (db : ContentDb) :
    (∀ r ∈ (captionExtractionPost videoId personaId newRunId (.ok []) idBase db).1.videos,
      r.video_id = videoId →
        r.captions_status = .failed ∧
        r.captions_error = some "No captions available for this video") ∧
    ((captionExtractionPost videoId personaId newRunId (.ok []) idBase db).2 = false) ∧
    (∀ (msg : String),
      (∀ r ∈ (captionExtractionPost videoId personaId newRunId
          (.error msg) idBase db).1.videos,
        r.video_id = videoId →
          r.captions_status = .failed ∧ r.captions_error = some msg) ∧
      (captionExtractionPost videoId personaId newRunId (.error msg) idBase db).2 = false) := by
  refine ⟨?_, rfl, fun msg => ⟨?_, rfl⟩⟩
  · intro r hr hrid
    rw [captionExtractionPost_ok_nil] at hr
    obtain ⟨w, _, _, rfl⟩ :=
      setVideo_eq_f videoId _ _ r hr hrid
    exact ⟨rfl, rfl⟩
  · intro r hr hrid
    rw [captionExtractionPost_err] at hr
    obtain ⟨w, _, _, rfl⟩ :=
      setVideo_eq_f videoId _ _ r hr hrid
    exact ⟨rfl, rfl⟩

/-- The row the zero-chunk run leaves behind for v1. -/
def failedRowC9 : VideoRow :=
  { vRowExtracted with
      captions_status := .failed
      captions_error := some "No captions available for this video" }

/-- Witness for C9: on the concrete store, the zero-chunk run leaves
video v1 failed with the descriptive reason. -/
theorem extraction_failure_sets_failed_witness :
    ∃ r ∈ (captionExtractionPost "v1" "p1" "rX" (.ok []) 10 dbBefore).1.videos,
      r.captions_status = CaptionsStatus.failed ∧
      r.captions_error = some "No captions available for this video" :=
  ⟨failedRowC9, by decide,
   (extraction_failure_sets_failed "v1" "p1" "rX" 10 dbBefore).1
     failedRowC9 (by decide) (by decide)⟩

/-! ## C5: embedding completion check.  Chunk rows carry the persona of
their video (extraction inserts them with the job's persona), so the
handler's persona-and-video scoped remaining-work query is the set of the
video's chunks with `embedded = false`. -/

/-- Unfolding: zero candidates selected — the handler returns early and
writes nothing, in particular it never reaches the completion check. -/
lemma captionEmbeddingPost_nil (personaId vid : String) (ok : Nat → Bool) (db : ContentDb)
    (h : selectCandidates personaId (some vid) db.captions = []) :
    captionEmbeddingPost personaId (some vid) ok db = db := by
  simp only [captionEmbeddingPost, h, List.isEmpty_nil, if_true]

/-- Unfolding: candidates processed but un-embedded chunks remain — only
the captions table changes. -/
lemma captionEmbeddingPost_busy (personaId vid : String) (ok : Nat → Bool) (db : ContentDb)
    (h : ¬ selectCandidates personaId (some vid) db.captions = [])
    (h2 : hasUnembedded personaId vid
      (applyEmbeds ok (selectCandidates personaId (some vid) db.captions) db.captions) = true) :
    captionEmbeddingPost personaId (some vid) ok db
      = { videos := db.videos
          captions := applyEmbeds ok (selectCandidates personaId (some vid) db.captions)
            db.captions } := by
  have hne : (selectCandidates personaId (some vid) db.captions).isEmpty = false := by
    rw [List.isEmpty_eq_false]
    exact h
  simp only [captionEmbeddingPost, hne, Bool.false_eq_true, if_false, h2, if_true]

/-- Unfolding: candidates processed and no un-embedded chunk of the video
remains — the video rows are marked completed. -/
lemma captionEmbeddingPost_done (personaId vid : String) (ok : Nat → Bool) (db : ContentDb)
    (h : ¬ selectCandidates personaId (some vid) db.captions = [])
    (h2 : hasUnembedded personaId vid
      (applyEmbeds ok (selectCandidates personaId (some vid) db.captions) db.captions) = false) :
    captionEmbeddingPost personaId (some vid) ok db
      = { videos := markVideoCompleted vid db.videos
          captions := applyEmbeds ok (selectCandidates personaId (some vid) db.captions)
            db.captions } := by
  have hne : (selectCandidates personaId (some vid) db.captions).isEmpty = false := by
    rw [List.isEmpty_eq_false]
    exact h
  simp only [captionEmbeddingPost, hne, Bool.false_eq_true, if_false, h2]

/-- A video row with all of its chunks already embedded but status still
`extracted` (the persona-wide embedding path never runs the completion
check, so this state is reachable). -/
def vRowStranded : VideoRow :=
  { video_id := "v2", persona_id := "p1", title := "T2", published_at := 0
    captions_status := .extracted, captions_error := none, apify_runid := some "r2" }

/-- The single — already embedded — chunk of v2. -/
def capEmbedded : CaptionRow :=
  { id := 3, video_id := "v2", persona_id := "p1", start_time := 0, duration := 40
    text := "c", embedding := true }

/-- Store in which v2 has no `embedded = false` chunk left. -/
def dbDrained : ContentDb := { videos := [vRowStranded], captions := [capEmbedded] }

/-- Every chunk embeds and upserts successfully. -/
def okAll : Nat → Bool := fun _ => true

/-- C5 counterexample: an embedding batch scoped to video v2 — which has
NO `embedded = false` chunk — selects zero candidates, returns early, and
does NOT mark v2 completed: the status stays `extracted` although the set
of un-embedded chunks is empty, refuting the claimed iff. -/
theorem embedding_completion_counterexample :
    hasUnembedded "p1" "v2"
        (captionEmbeddingPost "p1" (some "v2") okAll dbDrained).captions = false ∧
    captionEmbeddingPost "p1" (some "v2") okAll dbDrained = dbDrained ∧
    (∃ r ∈ (captionEmbeddingPost "p1" (some "v2") okAll dbDrained).videos,
      r.video_id = "v2" ∧ r.captions_status ≠ CaptionsStatus.completed) := by decide

/-- C5 (amended): (1) a scoped embedding invocation that selects zero
candidate chunks returns early and changes nothing — in particular it
performs no completion check; (2) the embedding stage never newly marks a
video completed while an `embedded = false` chunk of it remains; (3) after
a scoped invocation that selected at least one candidate, the video is
marked completed exactly when no `embedded = false` chunk of it remains. -/
theorem embedding_completion_spec (personaId vid : String) (ok : Nat → Bool)
    (db : ContentDb) :
    (selectCandidates personaId (some vid) db.captions = [] →
      captionEmbeddingPost personaId (some vid) ok db = db) ∧
    (∀ (i : Nat) (h1 : i < (captionEmbeddingPost personaId (some vid) ok db).videos.length)
        (h2 : i < db.videos.length),
      ((captionEmbeddingPost personaId (some vid) ok db).videos[i]).captions_status
          = .completed →
        (db.videos[i]).captions_status = .completed ∨
          hasUnembedded personaId vid
            (captionEmbeddingPost personaId (some vid) ok db).captions = false) ∧
    (selectCandidates personaId (some vid) db.captions ≠ [] →
      hasUnembedded personaId vid
        (captionEmbeddingPost personaId (some vid) ok db).captions = false →
      ∀ r ∈ (captionEmbeddingPost personaId (some vid) ok db).videos,
        r.video_id = vid → r.captions_status = .completed) := by
  by_cases hc : selectCandidates personaId (some vid) db.captions = []
  · rw [captionEmbeddingPost_nil personaId vid ok db hc]
    exact ⟨fun _ => rfl, fun i h1 h2 hcomp => Or.inl hcomp, fun hne => absurd hc hne⟩
  · by_cases hu : hasUnembedded personaId vid
        (applyEmbeds ok (selectCandidates personaId (some vid) db.captions) db.captions) = true
    · rw [captionEmbeddingPost_busy personaId vid ok db hc hu]
      refine ⟨fun h => absurd h hc, fun i h1 h2 hcomp => Or.inl hcomp, fun _ hfalse => ?_⟩
      rw [hu] at hfalse
      exact Bool.noConfusion hfalse
    · have hu2 := Bool.eq_false_iff.mpr (fun h => hu h)
      rw [captionEmbeddingPost_done personaId vid ok db hc hu2]
      refine ⟨fun h => absurd h hc, fun i h1 h2 hcomp => Or.inr hu2, fun _ _ r hr hrid => ?_⟩
      simp only [markVideoCompleted, List.mem_map] at hr
      obtain ⟨w, hw, hwe⟩ := hr
      by_cases hwid : w.video_id = vid
      · rw [if_pos hwid] at hwe
        rw [← hwe]
      · rw [if_neg hwid] at hwe
        rw [← hwe] at hrid
        exact absurd hrid hwid

/-- Witness for C5 (amended): embedding the last un-embedded chunk of a
video marks it completed. -/
def dbOneLeft : ContentDb :=
  { videos := [vRowExtracted]
    captions := [{ id := 1, video_id := "v1", persona_id := "p1", start_time := 0
                   duration := 40, text := "a", embedding := false }] }

theorem embedding_completion_spec_witness :
    (selectCandidates "p1" (some "v1") dbOneLeft.captions ≠ [] ∧
      hasUnembedded "p1" "v1"
        (captionEmbeddingPost "p1" (some "v1") okAll dbOneLeft).captions = false) ∧
    ∀ r ∈ (captionEmbeddingPost "p1" (some "v1") okAll dbOneLeft).videos,
      r.video_id = "v1" → r.captions_status = CaptionsStatus.completed :=
  ⟨⟨by decide, by decide⟩,
   (embedding_completion_spec "p1" "v1" okAll dbOneLeft).2.2 (by decide) (by decide)⟩

/-! ## C2: dequeue -/

/-- A single due pending job. -/
def jobA : Job :=
  { id := 1, status := .pending, retry_count := 0, max_retries := 3
    scheduled_at := 0, created_at := 0, started_at := none
    completed_at := none, error_message := none }

/-- C2 counterexample: the dequeue is a plain read followed by an update
filtered only on the job id — nothing conditions the write on the status
still being `pending` — so in the read-read-write-write interleaving of
two concurrent ticks BOTH ticks select, claim and process the same job,
refuting that at most one of them claims it. -/
theorem dequeue_double_claim_counterexample :
    (twoTicksReadReadWriteWrite 5 [jobA]).1 = some jobA ∧
    (twoTicksReadReadWriteWrite 5 [jobA]).2.1 = some jobA := by decide

/-- C2 (amended): `dequeueNext` selects the single oldest (smallest
`created_at`) pending job with `scheduled_at <= now` and transitions it
to `running` with `started_at = now` before returning it; the transition
however is a read-then-write update filtered only by job id, so two
concurrent ticks that both read before either writes claim the same job. -/
theorem dequeue_selects_oldest_due (now : Nat) (store : List Job) (j : Job)
    (h : selectNextPending now store = some j) :
    j ∈ store ∧ j.status = .pending ∧ j.scheduled_at ≤ now ∧
    (∀ k ∈ store, k.status = .pending → k.scheduled_at ≤ now →
      j.created_at ≤ k.created_at) ∧
    (dequeueTick now store).1 = some j ∧
    (∀ r ∈ (dequeueTick now store).2, r.id = j.id →
      r.status = .running ∧ r.started_at = some now) := by
  have hmem : j ∈ (store.filter
      (fun k => k.status = .pending ∧ k.scheduled_at ≤ now)).argmin
      (fun k => k.created_at) := h
  have hj := List.argmin_mem hmem
  obtain ⟨hjs, hjp⟩ := List.mem_filter.mp hj
  rw [decide_eq_true_eq] at hjp
  have htick : dequeueTick now store = (some j, claimUpdate now j.id store) := by
    unfold dequeueTick
    rw [h]
  refine ⟨hjs, hjp.1, hjp.2, ?_, ?_, ?_⟩
  · intro k hk hkp hks
    have hkf : k ∈ store.filter (fun k => k.status = .pending ∧ k.scheduled_at ≤ now) :=
      List.mem_filter.mpr ⟨hk, by rw [decide_eq_true_eq]; exact ⟨hkp, hks⟩⟩
    exact List.le_of_mem_argmin hkf hmem
  · rw [htick]
  · intro r hr hrid
    rw [htick] at hr
    simp only [claimUpdate, List.mem_map] at hr
    obtain ⟨w, hw, hwe⟩ := hr
    by_cases hid : w.id = j.id
    · rw [if_pos hid] at hwe
      rw [← hwe]
      exact ⟨rfl, rfl⟩
    · rw [if_neg hid] at hwe
      rw [← hwe] at hrid
      exact absurd hrid hid

/-- Witness for C2 (amended): the concrete one-job store. -/
theorem dequeue_selects_oldest_due_witness :
    jobA ∈ [jobA] ∧ jobA.status = JobStatus.pending ∧ jobA.scheduled_at ≤ 5 ∧
    (∀ k ∈ [jobA], k.status = JobStatus.pending → k.scheduled_at ≤ 5 →
      jobA.created_at ≤ k.created_at) ∧
    (dequeueTick 5 [jobA]).1 = some jobA ∧
    (∀ r ∈ (dequeueTick 5 [jobA]).2, r.id = jobA.id →
      r.status = JobStatus.running ∧ r.started_at = some 5) :=
  dequeue_selects_oldest_due 5 [jobA] jobA (by decide)

/-! ## C8: idempotency keys -/

/-- Number of extraction jobs carrying the deterministic key of a video. -/
def extractionJobCount (vid : String) (jobs : List JobRow) : Nat :=
  (jobs.filter (fun j => j.idempotency_key = "caption_extraction_" ++ vid)).length

/-- A list of jobs with pairwise distinct keys holds at most one job with
any given key. -/
lemma length_filter_key_le_one (l : List JobRow) (K : String)
    (h : (l.map (fun j => j.idempotency_key)).Nodup) :
    (l.filter (fun j => j.idempotency_key = K)).length ≤ 1 := by
  induction l with
  | nil => simp
  | cons a t ih =>
    rw [List.map_cons, List.nodup_cons] at h
    obtain ⟨ha, ht⟩ := h
    by_cases hk : a.idempotency_key = K
    · rw [List.filter_cons_of_pos (by rw [decide_eq_true_eq]; exact hk)]
      have hzero : (t.filter (fun j => j.idempotency_key = K)).length = 0 := by
        rw [List.length_eq_zero, List.filter_eq_nil_iff]
        intro j hj hjk
        rw [decide_eq_true_eq] at hjk
        exact ha (by rw [hk, ← hjk]; exact List.mem_map_of_mem _ hj)
      rw [List.length_cons, hzero]
    · rw [List.filter_cons_of_neg (by rw [decide_eq_true_eq]; exact hk)]
      exact ih ht

/-- `insertJobs` keeps at most one extraction job per video. -/
lemma insertJobs_extraction_count (existing new : List JobRow) (vid : String)
    (h : extractionJobCount vid existing ≤ 1) :
    extractionJobCount vid (insertJobs existing new) ≤ 1 := by
  unfold insertJobs
  split
  · rename_i hcond
    obtain ⟨h1, h2⟩ := hcond
    rw [extractionJobCount, List.filter_append, List.length_append]
    rw [extractionJobCount] at h
    rcases Nat.lt_or_ge
        (existing.filter
          (fun j => j.idempotency_key = "caption_extraction_" ++ vid)).length 1 with
      hlt | hge
    · have hnewle := length_filter_key_le_one new ("caption_extraction_" ++ vid) h1
      omega
    · have hex : ∃ e ∈ existing, e.idempotency_key = "caption_extraction_" ++ vid := by
        have hne : (existing.filter
            (fun j => j.idempotency_key = "caption_extraction_" ++ vid)) ≠ [] := by
          intro hnil
          rw [hnil] at hge
          simp at hge
        obtain ⟨e, he⟩ := List.exists_mem_of_ne_nil _ hne
        obtain ⟨hemem, hep⟩ := List.mem_filter.mp he
        rw [decide_eq_true_eq] at hep
        exact ⟨e, hemem, hep⟩
      obtain ⟨e, hemem, hek⟩ := hex
      have hnew0 : (new.filter
          (fun j => j.idempotency_key = "caption_extraction_" ++ vid)).length = 0 := by
        rw [List.length_eq_zero, List.filter_eq_nil_iff]
        intro j hj hjk
        rw [decide_eq_true_eq] at hjk
        exact h2 j hj e hemem (by rw [hjk, hek])
      omega
  · exact h

/-- `discoveryPost` keeps at most one extraction job per video. -/
lemma discoveryPost_extraction_count (catalog : List CatalogPage) (db : DiscoveryDb)
    (vid : String) (h : extractionJobCount vid db.jobs ≤ 1) :
    extractionJobCount vid (discoveryPost catalog db).jobs ≤ 1 := by
  unfold discoveryPost
  dsimp only
  split
  · dsimp only
    split
    · exact insertJobs_extraction_count _ _ _ h
    · exact h
  · exact h

/-- C8: a jobs insert whose batch reuses an existing idempotency key is
rejected wholly (the table is unchanged, the unit of work is not
scheduled again); the insert preserves the key-uniqueness invariant; the
extraction job built by discovery derives its key deterministically from
the video id alone; and a discovery run — hence any re-run over the same
videos — never brings the number of extraction jobs of any video above
one. -/
theorem idempotency_key_no_double_schedule :
    (∀ (existing new : List JobRow) (j e : JobRow), j ∈ new → e ∈ existing →
      j.idempotency_key = e.idempotency_key → insertJobs existing new = existing) ∧
    (∀ (existing new : List JobRow),
      (existing.map (fun j => j.idempotency_key)).Nodup →
      ((insertJobs existing new).map (fun j => j.idempotency_key)).Nodup) ∧
    (∀ (pid : String) (v : VideoRow),
      (captionJobOf pid v).idempotency_key = "caption_extraction_" ++ v.video_id) ∧
    (∀ (catalog : List CatalogPage) (db : DiscoveryDb) (vid : String),
      extractionJobCount vid db.jobs ≤ 1 →
      extractionJobCount vid (discoveryPost catalog db).jobs ≤ 1) := by
  refine ⟨?_, ?_, fun pid v => rfl, discoveryPost_extraction_count⟩
  · intro existing new j e hj he hkey
    unfold insertJobs
    rw [if_neg]
    intro hcond
    exact hcond.2 j hj e he hkey
  · intro existing new h
    unfold insertJobs
    split
    · rename_i hcond
      obtain ⟨h1, h2⟩ := hcond
      rw [List.map_append]
      refine h.append h1 ?_
      intro a hae han
      obtain ⟨e, hemem, heq⟩ := List.mem_map.mp hae
      obtain ⟨g, hgmem, hgq⟩ := List.mem_map.mp han
      exact h2 g hgmem e hemem (by rw [hgq, heq])
    · exact h

/-- Witness for C8: running discovery twice over the same catalog leaves
exactly one extraction job for video v1 (hypotheses discharged at the
empty store). -/
theorem idempotency_key_no_double_schedule_witness :
    extractionJobCount "v1"
      (discoveryPost
        [⟨[⟨"v1", "T1", 30⟩], false⟩]
        (discoveryPost [⟨[⟨"v1", "T1", 30⟩], false⟩]
          ⟨⟨"p", none, .pending⟩, [], []⟩)).jobs ≤ 1 :=
  idempotency_key_no_double_schedule.2.2.2
    [⟨[⟨"v1", "T1", 30⟩], false⟩]
    (discoveryPost [⟨[⟨"v1", "T1", 30⟩], false⟩] ⟨⟨"p", none, .pending⟩, [], []⟩)
    "v1"
    (idempotency_key_no_double_schedule.2.2.2
      [⟨[⟨"v1", "T1", 30⟩], false⟩] ⟨⟨"p", none, .pending⟩, [], []⟩ "v1" (by decide))

/-! ## C3: discovery runs -/

/-- The catalog of the scenario: newest-first pages `[v1, v2]` (with a
next-page token) then `[v3]` (last page). -/
def vInfo1 : VideoInfo := ⟨"v1", "T1", 30⟩

def vInfo2 : VideoInfo := ⟨"v2", "T2", 20⟩

def vInfo3 : VideoInfo := ⟨"v3", "T3", 10⟩

def catalogTwoPages : List CatalogPage := [⟨[vInfo1, vInfo2], true⟩, ⟨[vInfo3], false⟩]

/-- Persona with cursor null, empty video and job tables. -/
def dbEmpty : DiscoveryDb := ⟨⟨"p", none, .pending⟩, [], []⟩

/-- State after the first discovery run of the scenario. -/
def run1 : DiscoveryDb := discoveryPost catalogTwoPages dbEmpty

/-- State after the second discovery run of the scenario. -/
def run2 : DiscoveryDb := discoveryPost catalogTwoPages run1

/-- C3 counterexample: the FIRST run already walks both pages and ingests
all 3 videos (one invocation does not stop after one page), and after the
two runs `discovery_status` is `in_progress`, not `completed` — the
second run finds no new video and writes nothing at all. -/
theorem discovery_two_runs_counterexample :
    run1.videos.length = 3 ∧
    run2 = run1 ∧
    run2.persona.discovery_status = DiscoveryStatus.in_progress ∧
    run2.persona.discovery_status ≠ DiscoveryStatus.completed := by decide

/-- C3 (amended): one invocation of `discoverVideos` fetches pages until
the catalog reports no further page or a previously seen publish
timestamp is reached; `hasMore` is true exactly when at least one video
was collected, and the route persists the token and status only on a run
that found videos — so a run either sets `discovery_status = in_progress`
or changes nothing, and `completed` is never reached.  In the two-page
scenario the first run ingests all 3 videos, enqueues 3 extraction jobs
and sets `in_progress`; the second run is a no-op. -/
theorem discovery_never_completes :
    (∀ (catalog : List CatalogPage) (tok : Option Nat),
      0 < (discoverVideos catalog tok).videos.length →
        (discoverVideos catalog tok).hasMore = true) ∧
    (∀ (catalog : List CatalogPage) (db : DiscoveryDb),
      (discoveryPost catalog db).persona.discovery_status = DiscoveryStatus.in_progress ∨
        discoveryPost catalog db = db) ∧
    (run1.persona.discovery_status = DiscoveryStatus.in_progress ∧
      run1.videos.length = 3 ∧ run1.jobs.length = 3 ∧ run2 = run1) := by
  have h1 : ∀ (catalog : List CatalogPage) (tok : Option Nat),
      0 < (discoverVideos catalog tok).videos.length →
        (discoverVideos catalog tok).hasMore = true := by
    intro catalog tok hlen
    unfold discoverVideos at hlen ⊢
    dsimp only at hlen ⊢
    rcases hg : (discoverWalk tok catalog).reverse.getLast? with _ | lv
    · rw [List.getLast?_eq_none_iff] at hg
      rw [hg] at hlen
      simp at hlen
    · rfl
  refine ⟨h1, ?_, by decide⟩
  intro catalog db
  by_cases hv : 0 < (discoverVideos catalog db.persona.continuation_token).videos.length
  · left
    have hm := h1 catalog db.persona.continuation_token hv
    simp only [discoveryPost, gt_iff_lt, hv, if_true, hm]
  · right
    simp only [discoveryPost, gt_iff_lt, hv, if_false]

/-- Witness for C3 (amended): on the scenario catalog the first run's
discovery result is nonempty, hence `hasMore` is reported. -/
theorem discovery_never_completes_witness :
    (discoverVideos catalogTwoPages none).hasMore = true :=
  discovery_never_completes.1 catalogTwoPages none (by decide)

/-! ## C1: retry and backoff of an always-failing job -/

/-- Closed form of the job state after the i-th retry reset (1 ≤ i ≤ m-1)
of a fresh job first due at `s` whose handler always throws: attempt i ran
at time `s + 2^i - 2`, the reset stored the incremented count `i` and
rescheduled at `s + 2^(i+1) - 2` — the gap added by retry i is `2^i`
minutes relative to the attempt time. -/
def nthRetryState (e : String) (m s i : Nat) : Job :=
  { id := 0, status := .pending, retry_count := i, max_retries := m
    scheduled_at := s + 2 ^ (i + 1) - 2, created_at := s
    started_at := some (s + 2 ^ i - 2), completed_at := none
    error_message := some e }

/-- Closed form of the terminal state: the final attempt (number m) ran at
`s + 2^m - 2` and the terminal update set `failed` WITHOUT persisting the
last increment, leaving `retry_count = m - 1`. -/
def terminalFailedState (e : String) (m s : Nat) : Job :=
  { id := 0, status := .failed, retry_count := m - 1, max_retries := m
    scheduled_at := s + 2 ^ m - 2, created_at := s
    started_at := some (s + 2 ^ m - 2), completed_at := some (s + 2 ^ m - 2)
    error_message := some e }

lemma two_le_two_pow_succ (i : Nat) : 2 ≤ 2 ^ (i + 1) := by
  have h := Nat.one_le_two_pow (n := i)
  calc 2 = 2 * 1 := by norm_num
  _ ≤ 2 * 2 ^ i := by omega
  _ = 2 ^ (i + 1) := by rw [pow_succ, Nat.mul_comm]

/-- The first attempt of a fresh job that will retry. -/
lemma tick_fresh (e : String) (m s : Nat) (hm : 2 ≤ m) :
    tickAlwaysThrowing e (freshJob m s) = nthRetryState e m s 1 := by
  have h1 : 0 + 1 < m := by omega
  simp only [tickAlwaysThrowing, handleJobFailure, freshJob, nthRetryState, h1, if_true]
  congr 1

/-- The only attempt of a fresh job with `max_retries = 1` (or 0 retries
remaining): terminal failure, count not persisted. -/
lemma tick_fresh_last (e : String) (s : Nat) :
    tickAlwaysThrowing e (freshJob 1 s) = terminalFailedState e 1 s := by
  have h1 : ¬ (0 + 1 < 1) := by omega
  simp only [tickAlwaysThrowing, handleJobFailure, freshJob, terminalFailedState, h1, if_false]
  congr 1

/-- A retry attempt that retries again. -/
lemma tick_retry (e : String) (m s i : Nat) (him : i + 1 < m) :
    tickAlwaysThrowing e (nthRetryState e m s i) = nthRetryState e m s (i + 1) := by
  have h2 : 2 ≤ 2 ^ (i + 1) := two_le_two_pow_succ i
  have h3 : 2 ^ (i + 1 + 1) = 2 ^ (i + 1) + 2 ^ (i + 1) := by
    rw [pow_succ, mul_two]
  simp only [tickAlwaysThrowing, handleJobFailure, nthRetryState, him, if_true]
  congr 1
  omega

/-- The last attempt: the retry budget is exhausted, the job goes
terminal. -/
lemma tick_last (e : String) (m s : Nat) (hm : 2 ≤ m) :
    tickAlwaysThrowing e (nthRetryState e m s (m - 1)) = terminalFailedState e m s := by
  have hif : ¬ (m - 1 + 1 < m) := by omega
  have hme : m - 1 + 1 = m := by omega
  simp only [tickAlwaysThrowing, handleJobFailure, nthRetryState, terminalFailedState,
    hif, if_false, hme]
  rw [if_neg (show ¬ m < m from by omega)]

/-- The trace from the i-th retry state onward: the remaining `k` retry
states, then the terminal state. -/
lemma attemptTrace_from_retry (e : String) (m s : Nat) :
    ∀ (k i : Nat), 1 ≤ i → i + k + 1 = m →
      attemptTrace (k + 1) e (nthRetryState e m s i)
        = (List.range' (i + 1) k).map (nthRetryState e m s)
          ++ [terminalFailedState e m s] := by
  intro k
  induction k with
  | zero =>
    intro i hi him
    have hm2 : 2 ≤ m := by omega
    have hi' : i = m - 1 := by omega
    rw [attemptTrace, hi', tick_last e m s hm2]
    rw [if_neg (show ¬ (terminalFailedState e m s).status = JobStatus.pending from
      fun h => JobStatus.noConfusion h)]
    rfl
  | succ k ih =>
    intro i hi him
    have hlt : i + 1 < m := by omega
    rw [attemptTrace, tick_retry e m s i hlt]
    rw [if_pos (show (nthRetryState e m s (i + 1)).status = JobStatus.pending from rfl)]
    rw [ih (i + 1) (by omega) (by omega)]
    rfl

/-- C1 counterexample: with the migration default `max_retries = 3` a job
whose handler always throws is reset to pending (retried) only 2 times —
not 3 — and lands terminally failed with `retry_count = 2`, not 3: the
terminal update never writes the final increment. -/
theorem retry_count_counterexample :
    ((attemptTrace 4 "boom" (freshJob 3 0)).filter
        (fun j => j.status = JobStatus.pending)).length = 2 ∧
    ((attemptTrace 4 "boom" (freshJob 3 0)).getLast?.map (fun j => j.retry_count))
      = some 2 ∧
    ¬ ((attemptTrace 4 "boom" (freshJob 3 0)).getLast?.map (fun j => j.retry_count)
      = some 3) ∧
    ((attemptTrace 4 "boom" (freshJob 3 0)).getLast?.map (fun j => j.status))
      = some JobStatus.failed := by decide

/-- C1 (amended): a fresh job whose handler throws on every attempt is
retried exactly `max_retries - 1` times; each retry resets the status to
pending recording the error message, with the attempt's
`scheduled_at = now + 2^retry_count` for the just-incremented
`retry_count`, giving strictly increasing gaps `2^1, 2^2, ...`; the job
finally lands in `failed` with the error message recorded and
`retry_count = max_retries - 1` (the terminal update does not persist the
final increment). -/
theorem retry_backoff_spec (m s : Nat) (e : String) (hm : 1 ≤ m) :
    attemptTrace m e (freshJob m s)
      = (List.range' 1 (m - 1)).map (nthRetryState e m s)
        ++ [terminalFailedState e m s] ∧
    ((attemptTrace m e (freshJob m s)).filter
        (fun j => j.status = JobStatus.pending)).length = m - 1 ∧
    (attemptTrace m e (freshJob m s)).getLast? = some (terminalFailedState e m s) ∧
    (terminalFailedState e m s).status = .failed ∧
    (terminalFailedState e m s).retry_count = m - 1 ∧
    (terminalFailedState e m s).error_message = some e ∧
    (∀ i, (nthRetryState e m s i).status = .pending ∧
      (nthRetryState e m s i).retry_count = i ∧
      (nthRetryState e m s i).error_message = some e ∧
      (nthRetryState e m s (i + 1)).scheduled_at
        = (nthRetryState e m s i).scheduled_at + 2 ^ (i + 1) ∧
      2 ^ (i + 1) < 2 ^ (i + 2)) := by
  have hclosed : attemptTrace m e (freshJob m s)
      = (List.range' 1 (m - 1)).map (nthRetryState e m s)
        ++ [terminalFailedState e m s] := by
    rcases m with _ | m1
    · omega
    rcases m1 with _ | m2
    · rw [attemptTrace, tick_fresh_last e s]
      rw [if_neg (show ¬ (terminalFailedState e 1 s).status = JobStatus.pending from
        fun h => JobStatus.noConfusion h)]
      rfl
    · rw [attemptTrace, tick_fresh e (m2 + 2) s (by omega)]
      rw [if_pos (show (nthRetryState e (m2 + 2) s 1).status = JobStatus.pending from rfl)]
      rw [attemptTrace_from_retry e (m2 + 2) s m2 1 (by omega) (by omega)]
      rfl
  refine ⟨hclosed, ?_, ?_, rfl, rfl, rfl, ?_⟩
  · rw [hclosed, List.filter_append]
    have hmap : ((List.range' 1 (m - 1)).map (nthRetryState e m s)).filter
        (fun j => j.status = JobStatus.pending)
        = (List.range' 1 (m - 1)).map (nthRetryState e m s) := by
      rw [List.filter_eq_self]
      intro a ha
      obtain ⟨i, _, rfl⟩ := List.mem_map.mp ha
      rfl
    rw [hmap]
    have hterm : ([terminalFailedState e m s]).filter
        (fun j => j.status = JobStatus.pending) = [] := rfl
    rw [hterm, List.append_nil, List.length_map, List.length_range']
  · rw [hclosed]
    exact List.getLast?_concat _
  · intro i
    have h2 : 2 ≤ 2 ^ (i + 1) := two_le_two_pow_succ i
    have h3 : 2 ^ (i + 1 + 1) = 2 ^ (i + 1) + 2 ^ (i + 1) := by
      rw [pow_succ, mul_two]
    refine ⟨rfl, rfl, rfl, ?_, ?_⟩
    · simp only [nthRetryState]
      omega
    · exact Nat.pow_lt_pow_right (by norm_num) (by omega)

/-- Witness for C1 (amended): the default `max_retries = 3` instance. -/
theorem retry_backoff_spec_witness :
    1 ≤ 3 ∧
    attemptTrace 3 "boom" (freshJob 3 0)
      = (List.range' 1 2).map (nthRetryState "boom" 3 0)
        ++ [terminalFailedState "boom" 3 0] :=
  ⟨by decide, (retry_backoff_spec 3 0 "boom" (by decide)).1⟩

end YtPersona
